import Mathlib

/-!
Verification development for the mcp-router protocol engine.

The definitions below are shallow embeddings of the Python source:

- string-keyed Python dicts become association lists with replace-or-append
  insertion (dinsert) and first-match lookup (dlookup);
- datetimes become integer second counts; float durations become rationals;
- exceptions become Except values; external collaborator behaviour (a workflow
  or tool body, an HTTP POST, process resource sampling) becomes an explicit
  outcome parameter of the embedded operation.

Each section names the source file and function it embeds.
-/

section DictModel

variable {β : Type}

/-- Lookup in a Python-dict model: first pair whose key matches. -/
def dlookup : List (String × β) → String → Option β
  | [], _ => none
  | p :: rest, k => if p.1 = k then some p.2 else dlookup rest k

/-- Key membership in a Python-dict model. -/
def dmem : List (String × β) → String → Bool
  | [], _ => false
  | p :: rest, k => decide (p.1 = k) || dmem rest k

/-- Replace the value stored under an existing key, keeping its position. -/
def dreplace : List (String × β) → String → β → List (String × β)
  | [], _, _ => []
  | p :: rest, k, v => if p.1 = k then (k, v) :: dreplace rest k v else p :: dreplace rest k v

/-- Python dict assignment: replace in place when the key exists, else append. -/
def dinsert (m : List (String × β)) (k : String) (v : β) : List (String × β) :=
  if dmem m k then dreplace m k v else m ++ [(k, v)]

/-- Keys of a dict model are pairwise distinct (true for every real Python dict). -/
def dNodupKeys (m : List (String × β)) : Prop := (m.map Prod.fst).Nodup

end DictModel

/-! Transport-layer per-session rate limiter, embedded from
src/services/api/mcp/transport.py, method _validate_message_rate.
Timestamps are seconds; the 60-second window and the limit of 100 messages
per minute are the constants of the source. The one effectful step that can
raise inside the method is the violation recording on the reject path; the
boolean recordOk says whether that step succeeds, and a False oracle makes
the call propagate the exception (modeled as Except.error). -/

structure RateDecision where
  accepted : Bool
  timestamps : List Int
  violationRecorded : Bool
deriving Repr, DecidableEq

/-- Embedding of MCPTransport._validate_message_rate: prune timestamps at or
past 60 seconds of age, reject and record a violation when 100 or more remain,
else append the current timestamp and accept. -/
def validateMessageRate (window : List Int) (now : Int) (recordOk : Bool) :
    Except Unit RateDecision :=
  let windowStart := now - 60
  let kept := window.filter (fun ts => windowStart < ts)
  if 100 ≤ kept.length then
    if recordOk then
      Except.ok { accepted := false, timestamps := window, violationRecorded := true }
    else
      Except.error ()
  else
    Except.ok { accepted := true, timestamps := kept ++ [now], violationRecorded := false }

/-- Decisions taken by the session limiter over a schedule of message times,
starting from a given stored window, with the violation recording succeeding. -/
def validateMessageRateRun : List Int → List Int → List Bool
  | _, [] => []
  | window, t :: ts =>
    match validateMessageRate window t true with
    | Except.ok r => r.accepted :: validateMessageRateRun r.timestamps ts
    | Except.error _ => false :: validateMessageRateRun window ts

/-! Per-tool rate limiter, embedded from
src/packages/backend/src/api/mcp/security.py, SecurityManager.check_rate_limit.
It keeps one counter and the last execution time per tool; a falsy rate limit
(None or 0) disables it; a gap of more than 60 seconds since the last call
resets the counter. -/

structure RateLimitState where
  lastExecution : Int
  count : Nat
deriving Repr, DecidableEq

/-- Embedding of SecurityManager.check_rate_limit for one tool: the returned
boolean is True when the call is allowed and False when the source raises
SecurityError; the returned state is the stored state after the call. -/
def checkRateLimit (rateLimit : Option Int) (st : Option RateLimitState) (now : Int) :
    Option RateLimitState × Bool :=
  match rateLimit with
  | none => (st, true)
  | some l =>
    if l = 0 then (st, true)
    else
      match st with
      | none => (some { lastExecution := now, count := 1 }, true)
      | some s =>
        if 60 < now - s.lastExecution then
          (some { lastExecution := now, count := 1 }, true)
        else if l ≤ (s.count : Int) then
          (some s, false)
        else
          (some { lastExecution := now, count := s.count + 1 }, true)

/-- Decisions taken by the per-tool limiter over a schedule of call times. -/
def checkRateLimitRun (rateLimit : Option Int) : Option RateLimitState → List Int → List Bool
  | _, [] => []
  | st, t :: ts =>
    match checkRateLimit rateLimit st t with
    | (st2, d) => d :: checkRateLimitRun rateLimit st2 ts

/-- Schedule on which the two limiters differ: one call at second 0, then 99
calls at second 30, then one call at second 61. The sliding window of the
session limiter has dropped the call at second 0 by second 61 and accepts the
final call; the per-tool counter has not seen a 60-second gap since its last
call, still counts 100, and rejects it. -/
def c3Schedule : List Int := 0 :: (List.replicate 99 30 ++ [61])

/-! Workflow orchestrator, embedded from src/core/cognitive/orchestrator.py.
The execution map and its operations are sequentialized: one call to
execute_workflow is one step, with the workflow body, the memory sample and
the CPU sample supplied as outcome parameters. The prometheus gauge is pure
telemetry and is omitted; the count consulted by _check_resource_limits is
the length of the execution map, exactly as in the source. -/

structure WorkflowContext where
  monitoringConfig : List String
  enabledServices : List String
deriving Repr, DecidableEq

/-- Allow-list of WorkflowContext.validate_services. -/
def validServices : List String := ["screenshot", "network", "clipboard"]

/-- Services listed in the context that are outside the allow-list. -/
def invalidServices (ctx : WorkflowContext) : List String :=
  ctx.enabledServices.filter (fun s => ¬ validServices.contains s)

/-- Embedding of the WorkflowContext pydantic validator: it only checks the
allow-list; the monitoring_config entries are never consulted. A failure
carries the offending service names, as the ValueError message does. -/
def validateServicesCtx (ctx : WorkflowContext) : Except (List String) Unit :=
  if invalidServices ctx = [] then Except.ok () else Except.error (invalidServices ctx)

structure WorkflowState where
  workflowId : String
  status : String
  startTime : Int
  endTime : Option Int
  results : Option String
  error : Option String
  clientId : Option String
  sequenceNum : Nat
deriving Repr, DecidableEq

structure OrchResourceLimits where
  maxConcurrentWorkflows : Nat
  maxMemoryMB : Nat
  maxCPUTimeSeconds : Nat
  maxMessageSizeBytes : Nat
deriving Repr, DecidableEq

/-- Defaults of the ResourceLimits pydantic model. -/
def defaultOrchLimits : OrchResourceLimits :=
  { maxConcurrentWorkflows := 100, maxMemoryMB := 1024,
    maxCPUTimeSeconds := 300, maxMessageSizeBytes := 1048576 }

inductive OrchError where
  | workflowNotFound (workflowId : String)
  | invalidContext (badServices : List String)
  | resourceExhaustion (reason : String)
  | workflowFailed (message : String)
deriving Repr, DecidableEq

/-- State a fresh execution record is created with. -/
def runningState (wid : String) (t0 : Int) : WorkflowState :=
  { workflowId := wid, status := "running", startTime := t0, endTime := none,
    results := none, error := none, clientId := none, sequenceNum := 0 }

instance exceptDecEq {e a : Type} [DecidableEq e] [DecidableEq a] :
    DecidableEq (Except e a) := fun x y =>
  match x, y with
  | Except.ok u, Except.ok v =>
    if h : u = v then isTrue (by rw [h]) else isFalse (fun hc => h (by injection hc))
  | Except.error u, Except.error v =>
    if h : u = v then isTrue (by rw [h]) else isFalse (fun hc => h (by injection hc))
  | Except.ok _, Except.error _ => isFalse (fun hc => Except.noConfusion hc)
  | Except.error _, Except.ok _ => isFalse (fun hc => Except.noConfusion hc)

/-- Observable result of one execute_workflow call: the map right after the
first critical section (record inserted, gauge incremented), the map after the
finally block, whether the workflow body was invoked, and the value returned
or exception raised. -/
structure ExecResult where
  mapAfterInsert : List (String × WorkflowState)
  finalMap : List (String × WorkflowState)
  bodyInvoked : Bool
  outcome : Except OrchError String
deriving Repr, DecidableEq

/-- Embedding of CognitiveOrchestrator.execute_workflow. Steps, in source
order: registration lookup; context validation; first critical section
inserting the running record; _check_resource_limits, which counts the whole
map (the just-inserted record included) in a second critical section and then
samples memory (memoryOk oracle); the workflow body (body outcome); the CPU
delta check (cpuOk oracle); terminal status assignment; the finally block
storing the final state. -/
def executeWorkflow (lim : OrchResourceLimits) (registered : List String)
    (m : List (String × WorkflowState)) (wid execId : String) (ctx : WorkflowContext)
    (t0 t1 : Int) (body : Except String String) (memoryOk cpuOk : Bool) : ExecResult :=
  if ¬ registered.contains wid then
    { mapAfterInsert := m, finalMap := m, bodyInvoked := false,
      outcome := Except.error (OrchError.workflowNotFound wid) }
  else
    match validateServicesCtx ctx with
    | Except.error bad =>
      { mapAfterInsert := m, finalMap := m, bodyInvoked := false,
        outcome := Except.error (OrchError.invalidContext bad) }
    | Except.ok _ =>
      let st0 := runningState wid t0
      let m1 := dinsert m execId st0
      if lim.maxConcurrentWorkflows ≤ m1.length then
        let stf := { st0 with
          status := "failed", endTime := some t1,
          error := some "Maximum concurrent workflows exceeded" }
        { mapAfterInsert := m1, finalMap := dinsert m1 execId stf, bodyInvoked := false,
          outcome := Except.error
            (OrchError.resourceExhaustion "Maximum concurrent workflows exceeded") }
      else if ¬ memoryOk then
        let stf := { st0 with
          status := "failed", endTime := some t1,
          error := some "Memory limit exceeded" }
        { mapAfterInsert := m1, finalMap := dinsert m1 execId stf, bodyInvoked := false,
          outcome := Except.error (OrchError.resourceExhaustion "Memory limit exceeded") }
      else
        match body with
        | Except.error msg =>
          let stf := { st0 with
            status := "failed", endTime := some t1, error := some msg }
          { mapAfterInsert := m1, finalMap := dinsert m1 execId stf, bodyInvoked := true,
            outcome := Except.error (OrchError.workflowFailed msg) }
        | Except.ok res =>
          if ¬ cpuOk then
            let stf := { st0 with
              status := "failed", endTime := some t1,
              error := some "CPU time limit exceeded" }
            { mapAfterInsert := m1, finalMap := dinsert m1 execId stf, bodyInvoked := true,
              outcome := Except.error (OrchError.resourceExhaustion "CPU time limit exceeded") }
          else
            let stf := { st0 with
              status := "completed", endTime := some t1,
              results := some res }
            { mapAfterInsert := m1, finalMap := dinsert m1 execId stf, bodyInvoked := true,
              outcome := Except.ok execId }

/-- Embedding of CognitiveOrchestrator.cleanup_completed_workflows: drop every
record whose end_time is set and lies more than maxAgeHours * 3600 seconds in
the past; records without an end_time are kept. -/
def cleanupCompletedWorkflows (m : List (String × WorkflowState))
    (maxAgeHours now : Int) : List (String × WorkflowState) :=
  m.filter (fun p =>
    match p.2.endTime with
    | some e => decide (now - e ≤ maxAgeHours * 3600)
    | none => true)


/-! Orchestrator operations on the shared execution map, for the state-machine
and cleanup claims. One operation is either a full execute_workflow call or a
cleanup_completed_workflows call. -/

inductive OrchOp where
  | exec (wid execId : String) (ctx : WorkflowContext) (t0 t1 : Int)
      (body : Except String String) (memoryOk cpuOk : Bool)
  | cleanup (maxAgeHours now : Int)
deriving Repr

/-- Effect of one orchestrator operation on the execution map. -/
def orchStep (lim : OrchResourceLimits) (registered : List String)
    (m : List (String × WorkflowState)) : OrchOp → List (String × WorkflowState)
  | OrchOp.exec wid execId ctx t0 t1 body memoryOk cpuOk =>
    (executeWorkflow lim registered m wid execId ctx t0 t1 body memoryOk cpuOk).finalMap
  | OrchOp.cleanup maxAgeHours now => cleanupCompletedWorkflows m maxAgeHours now

/-- Status/end-time discipline of a single execution record: running records
have no end time, completed and failed records have one. -/
def TerminalOk (st : WorkflowState) : Prop :=
  (st.status = "running" ∧ st.endTime = none) ∨
  ((st.status = "completed" ∨ st.status = "failed") ∧ st.endTime ≠ none)

/-- Every record of the execution map satisfies TerminalOk. -/
def OrchInv (m : List (String × WorkflowState)) : Prop := ∀ p ∈ m, TerminalOk p.2

/-- Freshness of the generated execution id: execute_workflow derives it from
the workflow id and the current microsecond timestamp, so it is not yet
present in the map. Cleanup needs no side condition. -/
def OpFresh (m : List (String × WorkflowState)) : OrchOp → Prop
  | OrchOp.exec _ execId _ _ _ _ _ _ => dlookup m execId = none
  | OrchOp.cleanup _ _ => True

/-! Concrete inputs reproducing the concurrency-ceiling bug of
execute_workflow (resource limits as in the repository test fixture
tests/core/cognitive/test_workflow.py, max_concurrent_workflows = 2). -/

def c1Limits : OrchResourceLimits :=
  { maxConcurrentWorkflows := 2, maxMemoryMB := 100,
    maxCPUTimeSeconds := 10, maxMessageSizeBytes := 1048576 }

def c1Context : WorkflowContext :=
  { monitoringConfig := ["screenshot", "network", "clipboard"],
    enabledServices := ["screenshot", "network"] }

/-- First sequential execute_workflow call on a fresh orchestrator. -/
def c1FirstCall : ExecResult :=
  executeWorkflow c1Limits ["test"] [] "test" "exec1" c1Context 0 1 (Except.ok "done") true true

/-- Second sequential execute_workflow call, after the first completed. -/
def c1SecondCall : ExecResult :=
  executeWorkflow c1Limits ["test"] c1FirstCall.finalMap "test" "exec2" c1Context 2 3
    (Except.ok "done") true true

/-- Context listing the allowed service screenshot while its monitoring_config
sub-entry is absent. -/
def c8Context : WorkflowContext := { monitoringConfig := [], enabledServices := ["screenshot"] }

/-- Execution map used to instantiate the state-machine theorem. -/
def c7Running : WorkflowState := runningState "test" 100

def c7Done : WorkflowState :=
  { workflowId := "test", status := "completed", startTime := 0, endTime := some 10,
    results := some "ok", error := none, clientId := none, sequenceNum := 0 }

def c7Map : List (String × WorkflowState) := [("done1", c7Done), ("run1", c7Running)]

/-! Request dispatch, embedded from src/core/cognitive/orchestrator.py,
CognitiveOrchestrator.handle_request. A raw inbound request is abstracted by
the presence of the fields the MCPRequest pydantic model requires, its method
name, and its serialized size (the length of json.dumps of the payload). -/

structure RawRequest where
  hasId : Bool
  hasMethod : Bool
  hasParams : Bool
  methodName : String
  serializedSize : Nat
deriving Repr, DecidableEq

/-- Success of the MCPRequest(**request_data) pydantic validation: id, method
and params must be present and well typed. -/
def parseOkMCPRequest (r : RawRequest) : Bool := r.hasId && r.hasMethod && r.hasParams

inductive MCPResponseKind where
  | ok
  | err (code : Int) (message : String)
deriving Repr, DecidableEq

/-- Response produced by handle_request together with whether a registered
handler body was executed. -/
structure HandleResult where
  response : MCPResponseKind
  handlerRan : Bool
deriving Repr, DecidableEq

/-- Embedding of CognitiveOrchestrator.handle_request. Source order: pydantic
request validation (a failure is not an MCPError, so the generic handler turns
it into code -32603); then the size check against max_message_size_bytes
(MCPError.invalid_request, code -32600); then handler lookup (code -32601);
then the handler body, whose outcome is a parameter. -/
def handleRequest (lim : OrchResourceLimits) (handlers : List String) (r : RawRequest)
    (handlerResult : Except (Int × String) Unit) : HandleResult :=
  if ¬ parseOkMCPRequest r then
    { response := MCPResponseKind.err (-32603) "Internal error", handlerRan := false }
  else if lim.maxMessageSizeBytes < r.serializedSize then
    { response := MCPResponseKind.err (-32600) "Invalid Request: Message size exceeds limit",
      handlerRan := false }
  else if ¬ handlers.contains r.methodName then
    { response := MCPResponseKind.err (-32601) ("Method not found: " ++ r.methodName),
      handlerRan := false }
  else
    match handlerResult with
    | Except.ok _ => { response := MCPResponseKind.ok, handlerRan := true }
    | Except.error c => { response := MCPResponseKind.err c.1 c.2, handlerRan := true }

/-! Transport keep-alive, embedded from
src/packages/backend/src/services/transport/base.py (_keep_alive_loop) and
src/services/transport/http.py (HTTPTransport.send_notification). The HTTP
POST outcome is a parameter; message sizes are byte counts. -/

structure TransportStats where
  messagesSent : Nat
  messagesReceived : Nat
  bytesSent : Nat
  bytesReceived : Nat
  errors : Nat
deriving Repr, DecidableEq

structure TransportState where
  connected : Bool
  stats : TransportStats
deriving Repr, DecidableEq

inductive PostOutcome where
  | delivered
  | failed
deriving Repr, DecidableEq

/-- Embedding of HTTPTransport.send_notification: the boolean says whether the
call raised. The connected and size guards raise before the try block, so they
do not touch the stats; a POST failure increments the error counter and
re-raises; success updates the sent counters. -/
def sendNotificationHTTP (st : TransportState) (msgBytes maxMessageSize : Nat)
    (post : PostOutcome) : TransportState × Bool :=
  if ¬ st.connected then (st, true)
  else if maxMessageSize < msgBytes then (st, true)
  else
    match post with
    | PostOutcome.delivered =>
      ({ st with stats := { st.stats with
          messagesSent := st.stats.messagesSent + 1,
          bytesSent := st.stats.bytesSent + msgBytes } }, false)
    | PostOutcome.failed =>
      ({ st with stats := { st.stats with errors := st.stats.errors + 1 } }, true)

/-- Embedding of one non-cancelled iteration of _keep_alive_loop: after the
keep_alive_interval sleep, a ping notification is sent when connected; every
exception except cancellation is swallowed and the loop continues (the boolean
is True when the loop goes on to the next iteration). -/
def keepAliveIteration (st : TransportState) (pingBytes maxMessageSize : Nat)
    (post : PostOutcome) : TransportState × Bool :=
  if st.connected then
    ((sendNotificationHTTP st pingBytes maxMessageSize post).1, true)
  else
    (st, true)


/-! Tool registry and dispatcher, embedded from
src/packages/backend/src/api/mcp/tools.py and security.py, with the metrics
collector of src/services/api/mcp/metrics.py. -/

structure ToolCapabilities where
  requiredParams : Option (List String)
  paramTypes : Option (List (String × String))
deriving Repr, DecidableEq

structure Tool where
  name : String
  description : String
  version : String
  capabilities : ToolCapabilities
  rateLimit : Option Int
  timeout : Option Int
deriving Repr, DecidableEq

/-- Embedding of SecurityManager._validate_capabilities: the capability dict
must carry the keys required_params and param_types. -/
def validateCapabilities (c : ToolCapabilities) : Bool :=
  c.requiredParams.isSome && c.paramTypes.isSome

/-- Embedding of SecurityManager.validate_tool: non-empty name, description
and version; valid capabilities; a rate limit or timeout that is truthy and
non-positive is rejected (None and 0 are falsy and pass). -/
def validateTool (t : Tool) : Bool :=
  (!(t.name = "") && !(t.description = "") && !(t.version = "")) &&
  validateCapabilities t.capabilities &&
  (match t.rateLimit with
   | none => true
   | some r => !(decide (r ≠ 0) && decide (r ≤ 0))) &&
  (match t.timeout with
   | none => true
   | some r => !(decide (r ≠ 0) && decide (r ≤ 0)))

/-- Metrics record of one tool, from src/services/api/mcp/metrics.py. -/
structure SToolMetrics where
  totalCalls : Nat
  successfulCalls : Nat
  failedCalls : Nat
  totalDuration : Rat
  durations : List Rat
  errors : List (String × Nat)
  lastExecution : Option Int
  lastError : Option String
deriving Repr, DecidableEq

/-- Freshly initialised ToolMetrics() record. -/
def emptySToolMetrics : SToolMetrics :=
  { totalCalls := 0, successfulCalls := 0, failedCalls := 0, totalDuration := 0,
    durations := [], errors := [], lastExecution := none, lastError := none }

/-- Embedding of MetricsCollector.record_registration: insert a zeroed record
when the tool has none yet. -/
def recordRegistration (mm : List (String × SToolMetrics)) (toolName : String) :
    List (String × SToolMetrics) :=
  match dlookup mm toolName with
  | some _ => mm
  | none => mm ++ [(toolName, emptySToolMetrics)]

/-- Embedding of MetricsCollector._get_or_create_metrics: the updated map and
the record now stored under the name. -/
def getOrCreateMetrics (mm : List (String × SToolMetrics)) (toolName : String) :
    List (String × SToolMetrics) × SToolMetrics :=
  match dlookup mm toolName with
  | some r => (mm, r)
  | none => (mm ++ [(toolName, emptySToolMetrics)], emptySToolMetrics)

/-- Lower-casing of a character list, modelling str.lower on the ASCII error
messages involved. -/
def lowerChars (cs : List Char) : List Char := cs.map Char.toLower

/-- Pattern cs is an initial segment of the second list. -/
def charsLeading : List Char → List Char → Bool
  | [], _ => true
  | _ :: _, [] => false
  | a :: as, b :: bs => decide (a = b) && charsLeading as bs

/-- Pattern occurs somewhere inside the second list, modelling the Python
substring test of the in operator. -/
def charsHasSub (pat : List Char) : List Char → Bool
  | [] => charsLeading pat []
  | c :: rest => charsLeading pat (c :: rest) || charsHasSub pat rest

/-- Embedding of MetricsCollector._categorize_error: first keyword match on
the lower-cased message wins. -/
def categorizeError (error : String) : String :=
  let e := lowerChars error.data
  if charsHasSub "validation".data e then "validation_error"
  else if charsHasSub "timeout".data e then "timeout_error"
  else if charsHasSub "rate limit".data e then "rate_limit_error"
  else if charsHasSub "permission".data e then "permission_error"
  else "other_error"

/-- Increment one error-category bucket of the distribution dict. -/
def bumpError (errors : List (String × Nat)) (cat : String) : List (String × Nat) :=
  dinsert errors cat ((dlookup errors cat).getD 0 + 1)

/-- Embedding of MetricsCollector.record_execution (successful call): bump the
call counters, append the duration, keep only the last 100 samples, stamp the
execution time. -/
def recordExecution (mm : List (String × SToolMetrics)) (toolName : String)
    (duration : Rat) (now : Int) : List (String × SToolMetrics) :=
  let gm := getOrCreateMetrics mm toolName
  let m := gm.2
  let ds := m.durations ++ [duration]
  let ds2 := if 100 < ds.length then ds.drop (ds.length - 100) else ds
  dinsert gm.1 toolName
    { m with
      totalCalls := m.totalCalls + 1,
      successfulCalls := m.successfulCalls + 1,
      totalDuration := m.totalDuration + duration,
      durations := ds2,
      lastExecution := some now }

/-- Embedding of MetricsCollector.record_failure: bump the call and failure
counters, stamp the time, store the message, and increment the bucket chosen
by _categorize_error. -/
def recordFailure (mm : List (String × SToolMetrics)) (toolName : String)
    (error : String) (now : Int) : List (String × SToolMetrics) :=
  let gm := getOrCreateMetrics mm toolName
  let m := gm.2
  dinsert gm.1 toolName
    { m with
      totalCalls := m.totalCalls + 1,
      failedCalls := m.failedCalls + 1,
      lastExecution := some now,
      lastError := some error,
      errors := bumpError m.errors (categorizeError error) }

/-- Embedding of MetricsCollector._calculate_success_rate with its zero
guard. -/
def calculateSuccessRate (m : SToolMetrics) : Rat :=
  if m.totalCalls = 0 then 0 else (m.successfulCalls : Rat) / (m.totalCalls : Rat)

/-- Embedding of MetricsCollector._calculate_avg_duration with its empty-list
guard (statistics.mean of the retained samples). -/
def calculateAvgDuration (m : SToolMetrics) : Rat :=
  if m.durations = [] then 0 else m.durations.sum / (m.durations.length : Rat)

/-- Report shape returned by MetricsCollector.get_tool_metrics. -/
structure ToolMetricsView where
  totalCalls : Nat
  successfulCalls : Nat
  failedCalls : Nat
  successRate : Rat
  avgDuration : Rat
  lastExecution : Option Int
  lastError : Option String
  errorDistribution : List (String × Nat)
deriving Repr, DecidableEq

/-- Embedding of MetricsCollector.get_tool_metrics: total for every name; the
_get_or_create_metrics side effect inserts a zeroed record for unknown
names. -/
def getToolMetrics (mm : List (String × SToolMetrics)) (toolName : String) :
    List (String × SToolMetrics) × ToolMetricsView :=
  let gm := getOrCreateMetrics mm toolName
  let m := gm.2
  (gm.1,
   { totalCalls := m.totalCalls, successfulCalls := m.successfulCalls,
     failedCalls := m.failedCalls, successRate := calculateSuccessRate m,
     avgDuration := calculateAvgDuration m, lastExecution := m.lastExecution,
     lastError := m.lastError, errorDistribution := m.errors })

/-- Embedding of ToolRegistry.register_tool: reject tools failing the security
validation; a duplicate name logs a warning and returns without touching the
registry or the metrics; otherwise store the tool and initialise its
metrics. -/
def registerTool (reg : List (String × Tool)) (mm : List (String × SToolMetrics))
    (t : Tool) : Except String (List (String × Tool) × List (String × SToolMetrics)) :=
  if ¬ validateTool t then
    Except.error ("Tool " ++ t.name ++ " failed security validation")
  else if (dlookup reg t.name).isSome then
    Except.ok (reg, mm)
  else
    Except.ok (dinsert reg t.name t, recordRegistration mm t.name)

/-! Parameter validation and dispatch, for the failure-path metrics claim. -/

/-- Python value shape carried by a tool call parameter. -/
inductive PVal where
  | str (s : String)
  | int (n : Int)
  | float (q : Rat)
  | bool (b : Bool)
  | list
  | dict
deriving Repr, DecidableEq

/-- Embedding of isinstance(value, eval(typeName)) in
SecurityManager.validate_params: none models a NameError from eval, which the
except clause of validate_params turns into an overall False. Python booleans
are instances of int. -/
def isinstanceOf (v : PVal) (tyName : String) : Option Bool :=
  if tyName = "str" then some (match v with | PVal.str _ => true | _ => false)
  else if tyName = "int" then
    some (match v with | PVal.int _ => true | PVal.bool _ => true | _ => false)
  else if tyName = "float" then some (match v with | PVal.float _ => true | _ => false)
  else if tyName = "bool" then some (match v with | PVal.bool _ => true | _ => false)
  else if tyName = "list" then some (match v with | PVal.list => true | _ => false)
  else if tyName = "dict" then some (match v with | PVal.dict => true | _ => false)
  else none

/-- Declared-type pass over the supplied parameters. -/
def paramsTypeCheck (paramTypes : List (String × String)) : List (String × PVal) → Bool
  | [] => true
  | (k, v) :: rest =>
    match dlookup paramTypes k with
    | none => paramsTypeCheck paramTypes rest
    | some ty =>
      match isinstanceOf v ty with
      | none => false
      | some b => b && paramsTypeCheck paramTypes rest

/-- Embedding of SecurityManager.validate_params: every declared required
parameter present, every present declared parameter of the declared type. -/
def validateParams (t : Tool) (params : List (String × PVal)) : Bool :=
  if ¬ (t.capabilities.requiredParams.getD []).all (fun p => (dlookup params p).isSome) then
    false
  else
    paramsTypeCheck (t.capabilities.paramTypes.getD []) params

/-- Python exception kinds crossing ToolRegistry.execute_tool. The typeErr
constructor stands for the TypeError raised when the source constructs a
two-argument ToolError subclass with a single argument. -/
inductive PyErr where
  | validationToolErr (code message : String)
  | securityErr (message : String)
  | executionErr (code message : String)
  | typeErr (message : String)
  | otherErr (message : String)
deriving Repr, DecidableEq

/-- Message text of an exception, as str(e) yields it. -/
def pyErrMessage : PyErr → String
  | PyErr.validationToolErr _ m => m
  | PyErr.securityErr m => m
  | PyErr.executionErr _ m => m
  | PyErr.typeErr m => m
  | PyErr.otherErr m => m

/-- Embedding of ToolRegistry.execute_tool: lookup, per-tool rate limit,
parameter validation, then the handler body (outcome parameter). On handler
success record_execution runs and the result is returned; on handler failure
record_failure runs and the original exception is re-raised unchanged (the
outer except clause only logs and re-raises). Returns the rate-limit map, the
metrics map and the call outcome. -/
def executeTool (reg : List (String × Tool)) (rl : List (String × RateLimitState))
    (mm : List (String × SToolMetrics)) (name : String) (params : List (String × PVal))
    (now execNow : Int) (handler : Except PyErr String) (duration : Rat) :
    List (String × RateLimitState) × List (String × SToolMetrics) × Except PyErr String :=
  match dlookup reg name with
  | none => (rl, mm, Except.error (PyErr.typeErr ("Tool " ++ name ++ " not found")))
  | some tool =>
    let res := checkRateLimit tool.rateLimit (dlookup rl name) now
    let rl2 := match res.1 with
      | none => rl
      | some s => dinsert rl name s
    if ¬ res.2 then
      (rl2, mm, Except.error (PyErr.securityErr
        ("Rate limit exceeded for tool " ++ name ++ ".")))
    else if ¬ validateParams tool params then
      (rl2, mm, Except.error (PyErr.typeErr ("Invalid parameters for tool " ++ name)))
    else
      match handler with
      | Except.ok result => (rl2, recordExecution mm name duration execNow, Except.ok result)
      | Except.error e =>
        (rl2, recordFailure mm name (pyErrMessage e) execNow, Except.error e)

/-- Concrete tool used by the dispatcher witnesses. -/
def echoTool : Tool :=
  { name := "echo", description := "echo the input", version := "1.0.0",
    capabilities := { requiredParams := some [], paramTypes := some [] },
    rateLimit := none, timeout := none }


/-- Oversized raw request that also fails the pydantic shape validation: the
method field is absent and the serialized size exceeds the 1 MiB default. -/
def c4Oversized : RawRequest :=
  { hasId := true, hasMethod := false, hasParams := true,
    methodName := "workflow/execute", serializedSize := 2000000 }

/-! Theorems. -/

theorem dlookup_mem {b : Type} {m : List (String × b)} {k : String} {v : b}
    (h : dlookup m k = some v) : (k, v) ∈ m := by
  induction m with
  | nil => simp [dlookup] at h
  | cons p rest ih =>
    rw [dlookup] at h
    by_cases hk : p.1 = k
    · rw [if_pos hk] at h
      injection h with h
      rw [← hk, ← h]
      exact List.mem_cons_self _ _
    · rw [if_neg hk] at h
      exact List.mem_cons_of_mem p (ih h)

theorem dlookup_eq_none_iff {b : Type} {m : List (String × b)} {k : String} :
    dlookup m k = none ↔ ∀ p ∈ m, p.1 ≠ k := by
  induction m with
  | nil => simp [dlookup]
  | cons p rest ih =>
    rw [dlookup]
    by_cases hk : p.1 = k
    · simp [if_pos hk, hk]
    · simp [if_neg hk, ih, hk]

theorem dmem_eq_false {b : Type} {m : List (String × b)} {k : String}
    (h : dlookup m k = none) : dmem m k = false := by
  induction m with
  | nil => rfl
  | cons p rest ih =>
    rw [dlookup] at h
    rw [dmem]
    by_cases hk : p.1 = k
    · rw [if_pos hk] at h
      cases h
    · rw [if_neg hk] at h
      simp [hk, ih h]

theorem dlookup_eq_none_of_dmem_false {b : Type} {m : List (String × b)} {k : String}
    (h : dmem m k = false) : dlookup m k = none := by
  induction m with
  | nil => rfl
  | cons p rest ih =>
    rw [dmem, Bool.or_eq_false_iff] at h
    have hk : p.1 ≠ k := by
      intro hc
      have h1 := h.1
      rw [hc] at h1
      simp at h1
    rw [dlookup, if_neg hk, ih h.2]

theorem dlookup_append_some {b : Type} {m : List (String × b)} {k : String} {v : b}
    (m2 : List (String × b)) (h : dlookup m k = some v) :
    dlookup (m ++ m2) k = some v := by
  induction m with
  | nil => simp [dlookup] at h
  | cons p rest ih =>
    rw [dlookup] at h
    rw [List.cons_append, dlookup]
    by_cases hk : p.1 = k
    · rw [if_pos hk] at h ⊢
      exact h
    · rw [if_neg hk] at h ⊢
      exact ih h

theorem dlookup_append_none {b : Type} {m : List (String × b)} {k : String}
    (m2 : List (String × b)) (h : dlookup m k = none) :
    dlookup (m ++ m2) k = dlookup m2 k := by
  induction m with
  | nil => rfl
  | cons p rest ih =>
    rw [dlookup] at h
    rw [List.cons_append, dlookup]
    by_cases hk : p.1 = k
    · rw [if_pos hk] at h
      cases h
    · rw [if_neg hk] at h ⊢
      exact ih h

theorem dreplace_eq_self {b : Type} {m : List (String × b)} {k : String} (v : b)
    (h : dmem m k = false) : dreplace m k v = m := by
  induction m with
  | nil => rfl
  | cons p rest ih =>
    rw [dmem, Bool.or_eq_false_iff] at h
    have hk : p.1 ≠ k := by
      intro hc
      have h1 := h.1
      rw [hc] at h1
      simp at h1
    rw [dreplace, if_neg hk, ih h.2]

theorem dinsert_of_fresh {b : Type} {m : List (String × b)} {k : String} (v : b)
    (h : dlookup m k = none) : dinsert m k v = m ++ [(k, v)] := by
  rw [dinsert, dmem_eq_false h]
  rfl

theorem dmem_append {b : Type} (m m2 : List (String × b)) (k : String) :
    dmem (m ++ m2) k = (dmem m k || dmem m2 k) := by
  induction m with
  | nil => rfl
  | cons p rest ih => simp [dmem, ih, Bool.or_assoc]

theorem dreplace_append {b : Type} (m m2 : List (String × b)) (k : String) (v : b) :
    dreplace (m ++ m2) k v = dreplace m k v ++ dreplace m2 k v := by
  induction m with
  | nil => rfl
  | cons p rest ih =>
    rw [List.cons_append, dreplace, dreplace]
    by_cases hk : p.1 = k
    · rw [if_pos hk, if_pos hk, List.cons_append, ih]
    · rw [if_neg hk, if_neg hk, List.cons_append, ih]

theorem dinsert_dinsert_fresh {b : Type} {m : List (String × b)} {k : String} (v w : b)
    (h : dlookup m k = none) : dinsert (dinsert m k v) k w = m ++ [(k, w)] := by
  rw [dinsert_of_fresh v h, dinsert]
  have hm : dmem (m ++ [(k, v)]) k = true := by
    rw [dmem_append, dmem_eq_false h]
    simp [dmem]
  rw [if_pos hm, dreplace_append, dreplace_eq_self w (dmem_eq_false h)]
  simp [dreplace]

theorem dlookup_dreplace_self {b : Type} {m : List (String × b)} {k : String} (v : b)
    (h : dmem m k = true) : dlookup (dreplace m k v) k = some v := by
  induction m with
  | nil => simp [dmem] at h
  | cons p rest ih =>
    rw [dmem] at h
    rw [dreplace]
    by_cases hk : p.1 = k
    · rw [if_pos hk, dlookup, if_pos rfl]
    · simp only [hk, decide_False, Bool.false_or] at h
      rw [if_neg hk, dlookup, if_neg hk]
      exact ih h

theorem dlookup_dinsert_self {b : Type} (m : List (String × b)) (k : String) (v : b) :
    dlookup (dinsert m k v) k = some v := by
  cases hm : dmem m k with
  | true =>
    simp only [dinsert, hm, if_true]
    exact dlookup_dreplace_self v hm
  | false =>
    simp only [dinsert, hm, Bool.false_eq_true, if_false]
    rw [dlookup_append_none _ (dlookup_eq_none_of_dmem_false hm), dlookup, if_pos rfl]

theorem dlookup_dreplace_ne {b : Type} {m : List (String × b)} {k k2 : String} (v : b)
    (h : k2 ≠ k) : dlookup (dreplace m k v) k2 = dlookup m k2 := by
  induction m with
  | nil => rfl
  | cons p rest ih =>
    rw [dreplace]
    by_cases hk : p.1 = k
    · rw [if_pos hk, dlookup, if_neg (fun hc => h hc.symm), dlookup]
      rw [if_neg (by rw [hk]; exact fun hc => h (hc.symm))]
      exact ih
    · rw [if_neg hk, dlookup, dlookup]
      by_cases hk2 : p.1 = k2
      · rw [if_pos hk2, if_pos hk2]
      · rw [if_neg hk2, if_neg hk2]
        exact ih

theorem dlookup_dinsert_ne {b : Type} (m : List (String × b)) {k k2 : String} (v : b)
    (h : k2 ≠ k) : dlookup (dinsert m k v) k2 = dlookup m k2 := by
  cases hm : dmem m k with
  | true =>
    simp only [dinsert, hm, if_true]
    exact dlookup_dreplace_ne v h
  | false =>
    simp only [dinsert, hm, Bool.false_eq_true, if_false]
    cases he : dlookup m k2 with
    | none =>
      rw [dlookup_append_none _ he, dlookup, if_neg (fun hc => h hc.symm)]
      rfl
    | some u => rw [dlookup_append_some _ he]

theorem dlookup_filter {b : Type} {m : List (String × b)} (hn : dNodupKeys m)
    (f : String × b → Bool) (k : String) :
    dlookup (m.filter f) k =
      (dlookup m k).bind (fun v => if f (k, v) then some v else none) := by
  induction m with
  | nil => rfl
  | cons p rest ih =>
    have hn2 : dNodupKeys rest := by
      rw [dNodupKeys, List.map_cons] at hn
      exact (List.nodup_cons.mp hn).2
    have hnp : p.1 ∉ rest.map Prod.fst := by
      rw [dNodupKeys, List.map_cons] at hn
      exact (List.nodup_cons.mp hn).1
    by_cases hk : p.1 = k
    · have hrest : dlookup rest k = none := by
        rw [dlookup_eq_none_iff]
        intro q hq hqk
        rw [← hk] at hqk
        exact hnp (by rw [← hqk]; exact List.mem_map_of_mem Prod.fst hq)
      have hp : p = (k, p.2) := by rw [← hk]
      cases hf : f p with
      | true =>
        have hf2 : f (k, p.2) = true := by rw [← hp]; exact hf
        rw [List.filter_cons, hf]
        simp only [if_true, dlookup, if_pos hk]
        simp [hf2]
      | false =>
        have hf2 : f (k, p.2) = false := by rw [← hp]; exact hf
        have hfr : dlookup (List.filter f rest) k = none := by
          rw [dlookup_eq_none_iff]
          intro q hq
          exact dlookup_eq_none_iff.mp hrest q (List.mem_of_mem_filter hq)
        rw [List.filter_cons, hf]
        simp only [Bool.false_eq_true, if_false, dlookup, if_pos hk]
        rw [hfr]
        simp [hf2]
    · cases hf : f p with
      | true =>
        rw [List.filter_cons, hf]
        simp only [if_true, dlookup, if_neg hk]
        exact ih hn2
      | false =>
        rw [List.filter_cons, hf]
        simp only [Bool.false_eq_true, if_false, dlookup, if_neg hk]
        exact ih hn2


/-- C1 (code bug): with max_concurrent_workflows = 2 (the repository test
fixture), two sequential execute_workflow calls on a fresh orchestrator do not
both succeed, contrary to the claim and to test_resource_limits: the first
call completes, but the second inserts its record before _check_resource_limits
runs in a separate critical section and counts the whole map, terminal records
and the just-inserted record included, so the second call raises
ResourceExhaustion, its body is never invoked, and the map is left changed,
holding the new record with status failed. -/
theorem executeWorkflow_ceiling_check_not_atomic :
    c1FirstCall.outcome = Except.ok "exec1" ∧
    (dlookup c1FirstCall.finalMap "exec1").map WorkflowState.status = some "completed" ∧
    c1SecondCall.outcome =
      Except.error (OrchError.resourceExhaustion "Maximum concurrent workflows exceeded") ∧
    c1SecondCall.bodyInvoked = false ∧
    dlookup c1SecondCall.finalMap "exec2" = some
      { workflowId := "test", status := "failed", startTime := 2, endTime := some 3,
        results := none, error := some "Maximum concurrent workflows exceeded",
        clientId := none, sequenceNum := 0 } ∧
    c1SecondCall.finalMap ≠ c1FirstCall.finalMap := by
  decide

/-- C4 counterexample: the oversized request c4Oversized, whose method field
is missing, is answered with the internal-error response produced by the
failing pydantic validation, not with the size-limit error: handle_request
validates the request shape before it checks the size, so the size bound is
not checked before all other validation work. -/
theorem handleRequest_parses_before_size_check :
    handleRequest defaultOrchLimits ["workflow/execute"] c4Oversized (Except.ok ()) =
      { response := MCPResponseKind.err (-32603) "Internal error", handlerRan := false } ∧
    MCPResponseKind.err (-32603) "Internal error" ≠
      MCPResponseKind.err (-32600) "Invalid Request: Message size exceeds limit" := by
  decide

/-- C4 amended: the size bound is checked after the pydantic request-shape
validation but before method lookup and handler execution: every request that
passes the shape validation and exceeds maxMessageSizeBytes is answered with
the size-limit error and no handler runs. -/
theorem handleRequest_size_check_before_dispatch (lim : OrchResourceLimits)
    (handlers : List String) (r : RawRequest) (hres : Except (Int × String) Unit)
    (hparse : parseOkMCPRequest r = true)
    (hsize : lim.maxMessageSizeBytes < r.serializedSize) :
    handleRequest lim handlers r hres =
      { response := MCPResponseKind.err (-32600) "Invalid Request: Message size exceeds limit",
        handlerRan := false } := by
  simp [handleRequest, hparse, hsize]

/-- C4 amended witness: a well-formed oversized request gets the size-limit
error without any handler running. -/
theorem handleRequest_size_check_before_dispatch_witness :
    handleRequest defaultOrchLimits ["workflow/execute"]
      { hasId := true, hasMethod := true, hasParams := true,
        methodName := "workflow/execute", serializedSize := 2000000 } (Except.ok ()) =
      { response := MCPResponseKind.err (-32600) "Invalid Request: Message size exceeds limit",
        handlerRan := false } :=
  handleRequest_size_check_before_dispatch defaultOrchLimits ["workflow/execute"]
    { hasId := true, hasMethod := true, hasParams := true,
      methodName := "workflow/execute", serializedSize := 2000000 } (Except.ok ())
    (by decide) (by decide)

/-- C5: one connected iteration of the keep-alive loop sends the ping and, if
the send fails, increments the error counter, leaves the connected flag true,
performs no disconnect (the state carries no other connection change), and
continues the loop; a delivered ping increments the sent counter instead. -/
theorem keepAliveIteration_failure_keeps_connection (st : TransportState)
    (pingBytes maxB : Nat) (post : PostOutcome)
    (hconn : st.connected = true) (hsize : pingBytes ≤ maxB) :
    (keepAliveIteration st pingBytes maxB post).1.connected = true ∧
    (keepAliveIteration st pingBytes maxB post).2 = true ∧
    (post = PostOutcome.failed →
      (keepAliveIteration st pingBytes maxB post).1.stats.errors = st.stats.errors + 1 ∧
      (keepAliveIteration st pingBytes maxB post).1.stats.messagesSent =
        st.stats.messagesSent) ∧
    (post = PostOutcome.delivered →
      (keepAliveIteration st pingBytes maxB post).1.stats.messagesSent =
        st.stats.messagesSent + 1 ∧
      (keepAliveIteration st pingBytes maxB post).1.stats.errors = st.stats.errors) := by
  cases post with
  | failed =>
    simp [keepAliveIteration, sendNotificationHTTP, hconn, Nat.not_lt.mpr hsize]
  | delivered =>
    simp [keepAliveIteration, sendNotificationHTTP, hconn, Nat.not_lt.mpr hsize]

/-- C5 witness: a failing ping on a concrete connected transport. -/
theorem keepAliveIteration_failure_keeps_connection_witness :
    (keepAliveIteration
      { connected := true,
        stats := { messagesSent := 5, messagesReceived := 4, bytesSent := 100,
                   bytesReceived := 90, errors := 2 } }
      64 1048576 PostOutcome.failed).1.connected = true ∧
    (keepAliveIteration
      { connected := true,
        stats := { messagesSent := 5, messagesReceived := 4, bytesSent := 100,
                   bytesReceived := 90, errors := 2 } }
      64 1048576 PostOutcome.failed).1.stats.errors = 3 := by
  have h := keepAliveIteration_failure_keeps_connection
    { connected := true,
      stats := { messagesSent := 5, messagesReceived := 4, bytesSent := 100,
                 bytesReceived := 90, errors := 2 } }
    64 1048576 PostOutcome.failed rfl (by decide)
  exact ⟨h.1, (h.2.2.1 rfl).1⟩

/-- C8 counterexample: a context enabling the allowed service screenshot whose
monitoring_config has no screenshot entry passes validation, the workflow body
is invoked and the call succeeds; the sub-config requirement of the claim is
not checked anywhere in execute_workflow. -/
theorem executeWorkflow_ignores_missing_subconfig :
    (executeWorkflow defaultOrchLimits ["test"] [] "test" "exec1" c8Context 0 1
      (Except.ok "done") true true).bodyInvoked = true ∧
    (executeWorkflow defaultOrchLimits ["test"] [] "test" "exec1" c8Context 0 1
      (Except.ok "done") true true).outcome = Except.ok "exec1" := by
  decide

/-- C8 amended: for a registered workflow, a context whose enabledServices is
not a subset of the allow-list is rejected before the body runs: the call
fails with a validation error carrying exactly the offending service names and
the execution map is unchanged. Sub-config presence is not validated. -/
theorem executeWorkflow_rejects_unknown_services (lim : OrchResourceLimits)
    (registered : List String) (m : List (String × WorkflowState))
    (wid execId : String) (ctx : WorkflowContext) (t0 t1 : Int)
    (body : Except String String) (memoryOk cpuOk : Bool)
    (hreg : registered.contains wid = true)
    (hbad : invalidServices ctx ≠ []) :
    executeWorkflow lim registered m wid execId ctx t0 t1 body memoryOk cpuOk =
      { mapAfterInsert := m, finalMap := m, bodyInvoked := false,
        outcome := Except.error (OrchError.invalidContext (invalidServices ctx)) } := by
  have hval : validateServicesCtx ctx = Except.error (invalidServices ctx) := by
    simp [validateServicesCtx, hbad]
  have hmem : wid ∈ registered := by simpa using hreg
  simp [executeWorkflow, hval, hmem]

/-- C8 amended witness: an unknown service bogus is rejected by name with the
body never invoked. -/
theorem executeWorkflow_rejects_unknown_services_witness :
    executeWorkflow defaultOrchLimits ["test"] [] "test" "exec1"
      { monitoringConfig := [], enabledServices := ["bogus"] } 0 1
      (Except.ok "done") true true =
      { mapAfterInsert := [], finalMap := [], bodyInvoked := false,
        outcome := Except.error (OrchError.invalidContext ["bogus"]) } := by
  have h := executeWorkflow_rejects_unknown_services defaultOrchLimits ["test"] []
    "test" "exec1" { monitoringConfig := [], enabledServices := ["bogus"] } 0 1
    (Except.ok "done") true true (by decide) (by decide)
  exact h

/-- C10: reading metrics for a never-seen tool name is total and guarded: the
view reports zero totals, a success rate of 0 and an average duration of 0
(both divisions guarded by their zero checks), and the metrics map gains a
fresh zeroed record for the name. -/
theorem getToolMetrics_total_for_fresh_name (mm : List (String × SToolMetrics))
    (toolName : String) (h : dlookup mm toolName = none) :
    getToolMetrics mm toolName =
      (mm ++ [(toolName, emptySToolMetrics)],
       { totalCalls := 0, successfulCalls := 0, failedCalls := 0, successRate := 0,
         avgDuration := 0, lastExecution := none, lastError := none,
         errorDistribution := [] }) := by
  simp [getToolMetrics, getOrCreateMetrics, h, calculateSuccessRate, calculateAvgDuration,
    emptySToolMetrics]

/-- C10 witness: reading metrics for echo on an empty collector. -/
theorem getToolMetrics_total_for_fresh_name_witness :
    getToolMetrics [] "echo" =
      ([("echo", emptySToolMetrics)],
       { totalCalls := 0, successfulCalls := 0, failedCalls := 0, successRate := 0,
         avgDuration := 0, lastExecution := none, lastError := none,
         errorDistribution := [] }) :=
  getToolMetrics_total_for_fresh_name [] "echo" rfl


/-- C6: registering a valid tool whose name is already present is a no-op with
a warning and no exception: starting from a registry without the name, the
first registration stores the tool and initialises its metrics, the second
registration returns successfully leaving both maps unchanged, and the
registry holds exactly one definition under that name. -/
theorem registerTool_duplicate_is_noop (reg : List (String × Tool))
    (mm : List (String × SToolMetrics)) (t : Tool)
    (hv : validateTool t = true) (hfresh : dlookup reg t.name = none) :
    registerTool reg mm t =
      Except.ok (dinsert reg t.name t, recordRegistration mm t.name) ∧
    registerTool (dinsert reg t.name t) (recordRegistration mm t.name) t =
      Except.ok (dinsert reg t.name t, recordRegistration mm t.name) ∧
    ((dinsert reg t.name t).filter (fun p => decide (p.1 = t.name))).length = 1 := by
  refine ⟨?_, ?_, ?_⟩
  · simp [registerTool, hv, hfresh]
  · have hl : dlookup (dinsert reg t.name t) t.name = some t :=
      dlookup_dinsert_self reg t.name t
    simp [registerTool, hv, hl]
  · rw [dinsert_of_fresh t hfresh, List.filter_append]
    have h1 : reg.filter (fun p => decide (p.1 = t.name)) = [] := by
      rw [List.filter_eq_nil_iff]
      intro p hp
      simp only [decide_eq_true_eq]
      exact dlookup_eq_none_iff.mp hfresh p hp
    rw [h1]
    simp

/-- C6 witness: registering echo twice yields one echo definition and no
error. -/
theorem registerTool_duplicate_is_noop_witness :
    registerTool [] [] echoTool =
      Except.ok ([("echo", echoTool)], [("echo", emptySToolMetrics)]) ∧
    registerTool [("echo", echoTool)] [("echo", emptySToolMetrics)] echoTool =
      Except.ok ([("echo", echoTool)], [("echo", emptySToolMetrics)]) ∧
    ([("echo", echoTool)].filter
      (fun p => decide (p.1 = "echo")) : List (String × Tool)).length = 1 := by
  have h := registerTool_duplicate_is_noop [] [] echoTool (by decide) rfl
  exact ⟨h.1, h.2.1, h.2.2⟩

/-- C9 counterexample: a handler exception that is not an ExecutionError is
re-raised to the caller unchanged; execute_tool never wraps it, so the claim
that the error is re-raised as ExecutionError fails. -/
theorem executeTool_reraises_original_error :
    (executeTool [("echo", echoTool)] [] [] "echo" [] 0 1
      (Except.error (PyErr.otherErr "boom")) 1).2.2 =
      Except.error (PyErr.otherErr "boom") ∧
    (∀ code msg, (Except.error (PyErr.otherErr "boom") : Except PyErr String) ≠
      Except.error (PyErr.executionErr code msg)) := by
  constructor
  · decide
  · intro code msg h
    injection h with h
    exact PyErr.noConfusion h

/-- C9 amended: when the handler of a registered, rate-limit-free tool raises
and the parameters validate, execute_tool records the failure: totalCalls and
failedCalls each grow by one, lastError holds the message, the message is
classified into exactly one of the five categories and only that bucket grows
by one, and the original exception is re-raised unchanged (not wrapped as
ExecutionError). -/
theorem executeTool_failure_updates_metrics (reg : List (String × Tool))
    (rl : List (String × RateLimitState)) (mm : List (String × SToolMetrics))
    (name : String) (params : List (String × PVal)) (now execNow : Int)
    (tool : Tool) (e : PyErr) (duration : Rat)
    (hreg : dlookup reg name = some tool) (hrate : tool.rateLimit = none)
    (hparams : validateParams tool params = true) :
    (executeTool reg rl mm name params now execNow (Except.error e) duration).2.1 =
      recordFailure mm name (pyErrMessage e) execNow ∧
    (executeTool reg rl mm name params now execNow (Except.error e) duration).2.2 =
      Except.error e ∧
    dlookup (recordFailure mm name (pyErrMessage e) execNow) name = some
      { (getOrCreateMetrics mm name).2 with
        totalCalls := (getOrCreateMetrics mm name).2.totalCalls + 1,
        failedCalls := (getOrCreateMetrics mm name).2.failedCalls + 1,
        lastExecution := some execNow,
        lastError := some (pyErrMessage e),
        errors := bumpError (getOrCreateMetrics mm name).2.errors
          (categorizeError (pyErrMessage e)) } ∧
    dlookup (bumpError (getOrCreateMetrics mm name).2.errors
        (categorizeError (pyErrMessage e))) (categorizeError (pyErrMessage e)) =
      some ((dlookup (getOrCreateMetrics mm name).2.errors
        (categorizeError (pyErrMessage e))).getD 0 + 1) ∧
    (∀ c, c ≠ categorizeError (pyErrMessage e) →
      dlookup (bumpError (getOrCreateMetrics mm name).2.errors
        (categorizeError (pyErrMessage e))) c =
      dlookup (getOrCreateMetrics mm name).2.errors c) ∧
    (categorizeError (pyErrMessage e) = "validation_error" ∨
     categorizeError (pyErrMessage e) = "timeout_error" ∨
     categorizeError (pyErrMessage e) = "rate_limit_error" ∨
     categorizeError (pyErrMessage e) = "permission_error" ∨
     categorizeError (pyErrMessage e) = "other_error") := by
  refine ⟨?_, ?_, ?_, ?_, ?_, ?_⟩
  · simp [executeTool, hreg, hrate, checkRateLimit, hparams]
  · simp [executeTool, hreg, hrate, checkRateLimit, hparams]
  · rw [recordFailure]
    exact dlookup_dinsert_self _ _ _
  · rw [bumpError]
    exact dlookup_dinsert_self _ _ _
  · intro c hc
    rw [bumpError]
    exact dlookup_dinsert_ne _ _ hc
  · rw [categorizeError]
    split_ifs <;> tauto

/-- C9 amended witness: the handler failure boom on the echo tool is recorded
as one failed call in the other_error bucket and raised unchanged. -/
theorem executeTool_failure_updates_metrics_witness :
    (executeTool [("echo", echoTool)] [] [] "echo" [] 0 7
      (Except.error (PyErr.otherErr "boom")) 1).2.1 =
      recordFailure [] "echo" "boom" 7 ∧
    (executeTool [("echo", echoTool)] [] [] "echo" [] 0 7
      (Except.error (PyErr.otherErr "boom")) 1).2.2 =
      Except.error (PyErr.otherErr "boom") ∧
    dlookup (recordFailure [] "echo" "boom" 7) "echo" = some
      { emptySToolMetrics with
        totalCalls := 1, failedCalls := 1, lastExecution := some 7,
        lastError := some "boom", errors := [("other_error", 1)] } := by
  have h := executeTool_failure_updates_metrics [("echo", echoTool)] [] [] "echo" [] 0 7
    echoTool (PyErr.otherErr "boom") 1 rfl rfl (by decide)
  refine ⟨h.1, h.2.1, ?_⟩
  exact h.2.2.1.trans (by decide)


theorem executeWorkflow_finalMap_cases (lim : OrchResourceLimits) (registered : List String)
    (m : List (String × WorkflowState)) (wid execId : String) (ctx : WorkflowContext)
    (t0 t1 : Int) (body : Except String String) (memoryOk cpuOk : Bool)
    (hfresh : dlookup m execId = none) :
    (executeWorkflow lim registered m wid execId ctx t0 t1 body memoryOk cpuOk).finalMap = m ∨
    ∃ stf : WorkflowState, (stf.status = "completed" ∨ stf.status = "failed") ∧
      stf.endTime = some t1 ∧
      (executeWorkflow lim registered m wid execId ctx t0 t1 body memoryOk cpuOk).finalMap =
        m ++ [(execId, stf)] := by
  rw [executeWorkflow]
  split
  · exact Or.inl rfl
  · split
    · exact Or.inl rfl
    · dsimp only
      split
      · refine Or.inr ⟨_, ?_, ?_, dinsert_dinsert_fresh _ _ hfresh⟩
        · exact Or.inr rfl
        · rfl
      · split
        · refine Or.inr ⟨_, ?_, ?_, dinsert_dinsert_fresh _ _ hfresh⟩
          · exact Or.inr rfl
          · rfl
        · split
          · refine Or.inr ⟨_, ?_, ?_, dinsert_dinsert_fresh _ _ hfresh⟩
            · exact Or.inr rfl
            · rfl
          · split
            · refine Or.inr ⟨_, ?_, ?_, dinsert_dinsert_fresh _ _ hfresh⟩
              · exact Or.inr rfl
              · rfl
            · refine Or.inr ⟨_, ?_, ?_, dinsert_dinsert_fresh _ _ hfresh⟩
              · exact Or.inl rfl
              · rfl


/-- C7: per-record discipline of the execution map under orchestrator
operations (executes with fresh ids and cleanups), on maps satisfying the
running/terminal invariant with Python-dict keys. The invariant is preserved;
a terminal record is never modified by any operation and is removed only by a
cleanup whose age threshold its end time exceeds; a running record (end time
unset) is never removed or changed by cleanup; and cleanup removes exactly the
records whose end time predates the threshold — with the invariant, exactly
the aged-out terminal records. -/
theorem orchestrator_execution_state_machine (lim : OrchResourceLimits)
    (registered : List String) (m : List (String × WorkflowState)) (op : OrchOp)
    (hn : dNodupKeys m) (hInv : OrchInv m) (hfresh : OpFresh m op) :
    OrchInv (orchStep lim registered m op) ∧
    (∀ k st, dlookup m k = some st → st.status ≠ "running" →
      dlookup (orchStep lim registered m op) k = some st ∨
      ∃ h now, op = OrchOp.cleanup h now ∧
        dlookup (orchStep lim registered m op) k = none ∧
        ∃ e, st.endTime = some e ∧ h * 3600 < now - e) ∧
    (∀ k st (h now : Int), dlookup m k = some st → st.status = "running" →
      dlookup (cleanupCompletedWorkflows m h now) k = some st) ∧
    (∀ k st (h now : Int), dlookup m k = some st →
      (dlookup (cleanupCompletedWorkflows m h now) k = none ↔
        ∃ e, st.endTime = some e ∧ h * 3600 < now - e)) := by
  have hkeep : ∀ (k : String) (st : WorkflowState) (h now : Int), dlookup m k = some st →
      dlookup (cleanupCompletedWorkflows m h now) k =
        (if (match st.endTime with
             | some e => decide (now - e ≤ h * 3600)
             | none => true) then some st else none) := by
    intro k st h now hl
    rw [cleanupCompletedWorkflows, dlookup_filter hn _ k, hl]
    rfl
  have hc4 : ∀ (k : String) (st : WorkflowState) (h now : Int), dlookup m k = some st →
      (dlookup (cleanupCompletedWorkflows m h now) k = none ↔
        ∃ e, st.endTime = some e ∧ h * 3600 < now - e) := by
    intro k st h now hl
    rw [hkeep k st h now hl]
    cases he : st.endTime with
    | none => simp [he]
    | some e =>
      by_cases hage : now - e ≤ h * 3600
      · simp only [he, hage, decide_True, if_true]
        constructor
        · intro hc
          cases hc
        · rintro ⟨u, hu, hlt⟩
          injection hu with hu
          omega
      · simp only [he, hage, decide_False, Bool.false_eq_true, if_false]
        exact ⟨fun _ => ⟨e, rfl, by omega⟩, fun _ => trivial⟩
  have hc3 : ∀ (k : String) (st : WorkflowState) (h now : Int), dlookup m k = some st →
      st.status = "running" → dlookup (cleanupCompletedWorkflows m h now) k = some st := by
    intro k st h now hl hrun
    have hterm := hInv (k, st) (dlookup_mem hl)
    have hend : st.endTime = none := by
      rcases hterm with ⟨_, h2⟩ | ⟨h1, _⟩
      · exact h2
      · rcases h1 with h1 | h1
        · rw [hrun] at h1
          exact absurd h1 (by decide)
        · rw [hrun] at h1
          exact absurd h1 (by decide)
    rw [hkeep k st h now hl, hend]
    rfl
  refine ⟨?_, ?_, hc3, hc4⟩
  · cases op with
    | cleanup h now =>
      rw [orchStep, cleanupCompletedWorkflows]
      intro p hp
      exact hInv p (List.mem_of_mem_filter hp)
    | exec wid execId ctx t0 t1 body memoryOk cpuOk =>
      have hfr : dlookup m execId = none := hfresh
      rcases executeWorkflow_finalMap_cases lim registered m wid execId ctx t0 t1 body
          memoryOk cpuOk hfr with hcase | ⟨stf, hst, hend, hcase⟩
      · rw [orchStep, hcase]
        exact hInv
      · rw [orchStep, hcase]
        intro p hp
        rcases List.mem_append.mp hp with hp | hp
        · exact hInv p hp
        · simp only [List.mem_singleton] at hp
          subst hp
          right
          refine ⟨hst, ?_⟩
          rw [hend]
          simp
  · intro k st hl hnotrun
    cases op with
    | cleanup h now =>
      have hterm := hInv (k, st) (dlookup_mem hl)
      have hend : ∃ e, st.endTime = some e := by
        rcases hterm with ⟨h1, _⟩ | ⟨_, h2⟩
        · exact absurd h1 hnotrun
        · cases he : st.endTime with
          | none => exact absurd he h2
          | some e => exact ⟨e, rfl⟩
      rcases hend with ⟨e, he⟩
      by_cases hage : now - e ≤ h * 3600
      · left
        rw [orchStep, hkeep k st h now hl]
        simp [he, hage]
      · right
        refine ⟨h, now, rfl, ?_, e, he, by omega⟩
        rw [orchStep, hkeep k st h now hl]
        simp [he, hage]
    | exec wid execId ctx t0 t1 body memoryOk cpuOk =>
      left
      have hfr : dlookup m execId = none := hfresh
      have hne : k ≠ execId := by
        intro hc
        rw [hc, hfr] at hl
        cases hl
      rcases executeWorkflow_finalMap_cases lim registered m wid execId ctx t0 t1 body
          memoryOk cpuOk hfr with hcase | ⟨stf, _, _, hcase⟩
      · rw [orchStep, hcase]
        exact hl
      · rw [orchStep, hcase]
        exact dlookup_append_some _ hl

/-- C7 witness: on a concrete map holding one completed record with end time
10 and one running record, a cleanup at time 1000000 with a 24-hour threshold
keeps the running record untouched and removes the aged-out completed one. -/
theorem orchestrator_execution_state_machine_witness :
    dlookup (cleanupCompletedWorkflows c7Map 24 1000000) "run1" = some c7Running ∧
    dlookup (cleanupCompletedWorkflows c7Map 24 1000000) "done1" = none := by
  have hinv : OrchInv c7Map := by
    intro p hp
    cases hp with
    | head =>
      right
      exact ⟨Or.inl rfl, by simp [c7Done]⟩
    | tail _ hp2 =>
      cases hp2 with
      | head => exact Or.inl ⟨rfl, rfl⟩
      | tail _ hp3 => cases hp3
  have hnodup : dNodupKeys c7Map := by
    show (c7Map.map Prod.fst).Nodup
    decide
  have h := orchestrator_execution_state_machine defaultOrchLimits ["test"] c7Map
    (OrchOp.cleanup 24 1000000) hnodup hinv trivial
  refine ⟨h.2.2.1 "run1" c7Running 24 1000000 (by decide) rfl, ?_⟩
  exact (h.2.2.2 "done1" c7Done 24 1000000 (by decide)).mpr ⟨10, rfl, by decide⟩

/-- C2: the per-session rate validator drops window timestamps at least 60
seconds old, rejects and records a violation when at least the per-minute
limit of 100 remain, otherwise appends the current timestamp and accepts; the
only fallible internal step (recording the violation) sits on the reject path,
so an internal error propagates as an exception and the call never accepts:
the limiter is fail-closed. The acceptance condition is phrased through the
count of timestamps younger than 60 seconds. -/
theorem validateMessageRate_characterization (window : List Int) (now : Int) :
    (100 ≤ window.countP (fun ts => decide (now - ts < 60)) →
      validateMessageRate window now true =
        Except.ok { accepted := false, timestamps := window, violationRecorded := true } ∧
      validateMessageRate window now false = Except.error ()) ∧
    (window.countP (fun ts => decide (now - ts < 60)) < 100 →
      ∀ recordOk, validateMessageRate window now recordOk =
        Except.ok { accepted := true,
                    timestamps := window.filter (fun ts => now - 60 < ts) ++ [now],
                    violationRecorded := false }) ∧
    (∀ recordOk r, validateMessageRate window now recordOk = Except.ok r →
      r.accepted = true → window.countP (fun ts => decide (now - ts < 60)) < 100) := by
  have hfe : window.filter (fun ts => decide (now - 60 < ts)) =
      window.filter (fun ts => decide (now - ts < 60)) := by
    apply List.filter_congr
    intro x _
    simp only [decide_eq_decide]
    omega
  have hcount : window.countP (fun ts => decide (now - ts < 60)) =
      (window.filter (fun ts => decide (now - 60 < ts))).length := by
    rw [hfe, List.countP_eq_length_filter]
  refine ⟨?_, ?_, ?_⟩
  · intro h
    rw [hcount] at h
    constructor <;> simp [validateMessageRate, if_pos h]
  · intro h recordOk
    rw [hcount] at h
    simp [validateMessageRate, Nat.not_le.mpr h]
  · intro recordOk r hok hacc
    by_contra hge
    rw [Nat.not_lt, hcount] at hge
    simp only [validateMessageRate, if_pos hge] at hok
    cases recordOk
    · simp at hok
    · simp only [if_pos rfl] at hok
      cases hok
      simp at hacc

set_option maxRecDepth 10000 in
/-- C2 witness: the characterization evaluated at concrete windows, one full
window of 100 timestamps and one short window. -/
theorem validateMessageRate_characterization_witness :
    validateMessageRate (List.replicate 100 30) 50 true =
      Except.ok { accepted := false, timestamps := List.replicate 100 30,
                  violationRecorded := true } ∧
    validateMessageRate [30] 50 true =
      Except.ok { accepted := true, timestamps := [30, 50], violationRecorded := false } := by
  constructor
  · exact ((validateMessageRate_characterization (List.replicate 100 30) 50).1 (by decide)).1
  · have h := (validateMessageRate_characterization [30] 50).2.1 (by decide) true
    simpa using h

set_option maxRecDepth 10000 in
/-- C3 counterexample: the per-tool rate limiter of the dispatcher is not
extensionally equal to the per-session sliding-window limiter; on c3Schedule
with the limit 100 their accept/reject decisions differ at the final call. -/
theorem checkRateLimit_not_sliding_window :
    checkRateLimitRun (some 100) none c3Schedule ≠ validateMessageRateRun [] c3Schedule := by
  decide

theorem rateLimiters_agree_aux (T : Int) (sched : List Int) :
    ∀ (w : List Int) (st : Option RateLimitState),
      (∀ x ∈ w, T ≤ x ∧ x < T + 60) →
      ((w = [] ∧ st = none) ∨
        ∃ l c, st = some ⟨l, c⟩ ∧ c = w.length ∧ T ≤ l ∧ l < T + 60) →
      (∀ t ∈ sched, T ≤ t ∧ t < T + 60) →
      checkRateLimitRun (some 100) st sched = validateMessageRateRun w sched := by
  induction sched with
  | nil => intro w st _ _ _; rfl
  | cons t ts ih =>
    intro w st hw hrel hsched
    have ht : T ≤ t ∧ t < T + 60 := hsched t (List.mem_cons_self t ts)
    have hts : ∀ u ∈ ts, T ≤ u ∧ u < T + 60 := fun u hu => hsched u (List.mem_cons_of_mem t hu)
    have hkeep : w.filter (fun x => decide (t - 60 < x)) = w := by
      apply List.filter_eq_self.mpr
      intro x hx
      have := hw x hx
      simp only [decide_eq_true_eq]
      omega
    rcases hrel with ⟨hwnil, hstnone⟩ | ⟨l, c, hst, hc, hTl, hl60⟩
    · subst hwnil; subst hstnone
      show (checkRateLimit (some 100) none t).2 ::
          checkRateLimitRun (some 100) (checkRateLimit (some 100) none t).1 ts = _
      simp only [checkRateLimit, validateMessageRateRun, validateMessageRate,
        List.filter_nil, List.length_nil, reduceIte, List.nil_append]
      refine congrArg (List.cons true) ?_
      apply ih [t] (some ⟨t, 1⟩)
      · intro x hx
        simp only [List.mem_singleton] at hx
        subst hx; exact ht
      · exact Or.inr ⟨t, 1, rfl, by simp, ht.1, ht.2⟩
      · exact hts
    · subst hst; subst hc
      have hgap : ¬ (60 < t - l) := by omega
      by_cases hcnt : 100 ≤ w.length
      · have h100 : (100 : Int) ≤ (w.length : Int) := by exact_mod_cast hcnt
        have hsec : checkRateLimit (some 100) (some ⟨l, w.length⟩) t =
            (some ⟨l, w.length⟩, false) := by
          simp [checkRateLimit, hgap, h100]
        have hkeptlen : 100 ≤ (w.filter (fun x => decide (t - 60 < x))).length := by
          rw [hkeep]; exact hcnt
        have htr : validateMessageRate w t true =
            Except.ok { accepted := false, timestamps := w, violationRecorded := true } := by
          simp [validateMessageRate, hkeptlen]
        show (checkRateLimit (some 100) (some ⟨l, w.length⟩) t).2 ::
            checkRateLimitRun (some 100) (checkRateLimit (some 100) (some ⟨l, w.length⟩) t).1
              ts = _
        rw [hsec]
        simp only [validateMessageRateRun, htr]
        refine congrArg (List.cons false) ?_
        exact ih w (some ⟨l, w.length⟩) hw
          (Or.inr ⟨l, w.length, rfl, rfl, hTl, hl60⟩) hts
      · have h100 : ¬ ((100 : Int) ≤ (w.length : Int)) := by
          simp only [Nat.cast_le] at *
          exact_mod_cast fun h => hcnt (by exact_mod_cast h)
        have hsec : checkRateLimit (some 100) (some ⟨l, w.length⟩) t =
            (some ⟨t, w.length + 1⟩, true) := by
          simp [checkRateLimit, hgap, h100]
        have hkeptlen : ¬ (100 ≤ (w.filter (fun x => decide (t - 60 < x))).length) := by
          rw [hkeep]; exact hcnt
        have htr : validateMessageRate w t true =
            Except.ok { accepted := true, timestamps := w ++ [t], violationRecorded := false } := by
          simp only [validateMessageRate, hkeep]
          rw [if_neg hcnt]
        show (checkRateLimit (some 100) (some ⟨l, w.length⟩) t).2 ::
            checkRateLimitRun (some 100) (checkRateLimit (some 100) (some ⟨l, w.length⟩) t).1
              ts = _
        rw [hsec]
        simp only [validateMessageRateRun, htr]
        refine congrArg (List.cons true) ?_
        apply ih (w ++ [t]) (some ⟨t, w.length + 1⟩)
        · intro x hx
          rcases List.mem_append.mp hx with hx | hx
          · exact hw x hx
          · simp only [List.mem_singleton] at hx; subst hx; exact ht
        · exact Or.inr ⟨t, w.length + 1, rfl, by simp, ht.1, ht.2⟩
        · exact hts

/-- C3 amended: the per-tool limiter is a reset-on-gap counter, not the
sliding-window algorithm of the session limiter, and the two are not
extensionally equal (see checkRateLimit_not_sliding_window); they do agree,
accepting and rejecting the same calls, on every schedule whose calls all lie
inside one 60-second burst, with the per-tool limit set to the session
limiter's constant 100. -/
theorem rateLimiters_agree_within_burst (sched : List Int) (T : Int)
    (h : ∀ t ∈ sched, T ≤ t ∧ t < T + 60) :
    checkRateLimitRun (some 100) none sched = validateMessageRateRun [] sched :=
  rateLimiters_agree_aux T sched [] none (by simp) (Or.inl ⟨rfl, rfl⟩) h

/-- C3 amended witness: the burst agreement evaluated on a concrete schedule. -/
theorem rateLimiters_agree_within_burst_witness :
    checkRateLimitRun (some 100) none [0, 1, 2] = validateMessageRateRun [] [0, 1, 2] :=
  rateLimiters_agree_within_burst [0, 1, 2] 0 (by decide)
